import Mathlib

/-!
Verification of the CoinTaxman taxation evaluator (`src/taxman.py`) against its
natural-language specification.

The evaluator in `src/taxman.py` is embedded shallowly below.  Python `Decimal`
amounts become `Rat` (exact arithmetic), timestamps become a `Time` structure
(year plus second-within-year, lexicographically ordered), exceptions become
`Except String`, and the mutable `Taxman` state (the realized and virtual tax
event lists) is threaded explicitly.  The collaborators that the repository
imports but whose sources are not part of `src/` (the `balance_queue`,
`transaction`, `config`, `misc` and `price_data` modules) are modelled from the
specification; each such definition says so in its doc comment.
-/

set_option autoImplicit false

namespace CoinTaxman

/-- A timezone-aware UTC timestamp, reduced to the data the evaluator inspects:
the calendar year (`datetime.year`, used by `in_tax_year` and the tax-year
precondition) and the second within the year (used only for ordering and for
the `datetime(TAX_YEAR, 12, 31, 23, 59, 59)` year-end constant). -/
structure Time where
  year : Int
  sec : Int
deriving DecidableEq, Repr

/-- Lexicographic `datetime` comparison: year first, then time within year. -/
def timeLeB (a b : Time) : Bool :=
  a.year < b.year || (a.year == b.year && a.sec ≤ b.sec)

/-- Python `min` on two datetimes: the first argument wins ties. -/
def minTime (a b : Time) : Time :=
  if timeLeB a b then a else b

/-- The last second of a year, `12-31 23:59:59`, as seconds from the start of a
(non-leap) year; the concrete value only matters for ordering within a year. -/
def endOfYearSec : Int := 31535999

/-- The operation kinds dispatched on by `_evaluate_taxation_GERMANY`'s
`isinstance` chain.  `other` stands for any `transaction.Operation` subclass
not named in that chain (the spec's "anything else" row); the `transaction`
module itself is not part of `src/`. -/
inductive OpKind where
  | buy
  | sell
  | fee
  | deposit
  | withdrawal
  | airdrop
  | commission
  | coinLend
  | coinLendEnd
  | staking
  | stakingEnd
  | coinLendInterest
  | stakingInterest
  | other
deriving DecidableEq, Repr

/-- Modelled from the spec: a normalized ledger Operation (`transaction`
module, not in `src/`): kind, `utc_time`, `platform`, `coin` and the decimal
amount `change`.  Provenance fields (`raw_ids`, `source_file`) never influence
the evaluator and are omitted.  `change` is the positive magnitude for every
kind (the virtual sell in `taxman.py` is built with the positive remaining
balance and per-lot fractions `sc.sold / op.change` sum to one). -/
structure Op where
  kind : OpKind
  utc_time : Time
  platform : String
  coin : String
  change : Rat
deriving DecidableEq, Repr

/-- Modelled from the spec: a Lot of the balance queue (`balance_queue` module,
not in `src/`): the origin operation and the remaining amount `not_sold`
(`taxman.py` reads `bop.not_sold` of the queue's entries). -/
structure Lot where
  op : Op
  not_sold : Rat
deriving DecidableEq, Repr

/-- Modelled from the spec: a Consumption Record returned by the queue's
`remove` (`balance_queue` module, not in `src/`): the consumed lot's origin
operation `op` and the amount `sold` taken from it (`taxman.py` reads `sc.op`
and `sc.sold`). -/
structure SoldCoin where
  op : Op
  sold : Rat
deriving DecidableEq, Repr

/-- Modelled from the spec: the `tr.TaxEvent` output record (`transaction`
module, not in `src/`), with the constructor defaults used by the three-field
calls in `taxman.py`.  The human-readable `remark` string is abstracted to its
information content: one `(sold, origin time, origin kind)` triple per
consumed lot. -/
structure TaxEvent where
  taxation_type : String
  taxed_gain : Rat
  op : Op
  sell_value : Rat := 0
  real_gain : Rat := 0
  remark : List (Rat × Time × OpKind) := []
deriving DecidableEq, Repr

/-- The configured lot-matching principle (`core.Principle`). -/
inductive Principle where
  | fifo
  | lifo
deriving DecidableEq, Repr

/-- Modelled from the spec: the configuration and collaborator inputs consumed
by the evaluator — `config` (tax year, home fiat, long-term predicate,
unrealized-gains flag, principle, multi-depot flag), `misc.is_fiat`, the
`PriceData.get_cost` cost-basis collaborator (one form for operations and one
for consumption records), and the `datetime.now()` sampled when computing
`TAX_DEADLINE`.  None of these modules are in `src/`. -/
structure Cfg where
  TAX_YEAR : Int
  FIAT : String
  is_fiat : String → Bool
  IS_LONG_TERM : Time → Time → Bool
  CALCULATE_UNREALIZED_GAINS : Bool
  PRINCIPLE : Principle
  MULTI_DEPOT : Bool
  now : Time
  get_cost : Op → Rat
  get_cost_sc : SoldCoin → Rat

/-- `taxman.in_tax_year`: the operation's year equals the configured tax
year. -/
def in_tax_year (cfg : Cfg) (op : Op) : Bool :=
  op.utc_time.year == cfg.TAX_YEAR

/-- `taxman.TAX_DEADLINE`: the earlier of the tax year's last second and the
current time. -/
def TAX_DEADLINE (cfg : Cfg) : Time :=
  minTime ⟨cfg.TAX_YEAR, endOfYearSec⟩ cfg.now

/-- Modelled from the spec: `BalanceQueue.add` (`balance_queue` module, not in
`src/`): append a fresh lot holding the full acquired amount, at the end for
FIFO consumption-from-the-front, at the front for LIFO. -/
def addOp (p : Principle) (q : List Lot) (op : Op) : List Lot :=
  match p with
  | .fifo => q ++ [⟨op, op.change⟩]
  | .lifo => ⟨op, op.change⟩ :: q

/-- Modelled from the spec: the consumption loop of `BalanceQueue.remove`
(`balance_queue` module, not in `src/`): walk the queue from the most eligible
lot, take `min(remaining, needed)` from each lot until the requested amount is
satisfied, returning the consumption records and the remaining queue; `none`
models the `InsufficientBalance` failure when the queue holds too little. -/
def removeAmount : Rat → List Lot → Option (List SoldCoin × List Lot)
  | a, [] => if a ≤ 0 then some ([], []) else none
  | a, l :: ls =>
    if a ≤ 0 then some ([], l :: ls)
    else if a ≤ l.not_sold then
      some ([⟨l.op, a⟩], if a = l.not_sold then ls else ⟨l.op, l.not_sold - a⟩ :: ls)
    else
      match removeAmount (a - l.not_sold) ls with
      | none => none
      | some (scs, q') => some (⟨l.op, l.not_sold⟩ :: scs, q')

/-- `misc.dsum` over the queue's `not_sold` amounts: the balance left. -/
def dsum (q : List Lot) : Rat :=
  q.foldl (fun s l => s + l.not_sold) 0

/-- Modelled from the spec: `BalanceQueue.sanity_check` (`balance_queue`
module, not in `src/`): assert that no lot's remaining amount is negative. -/
def sanity_check (q : List Lot) : Except String Unit :=
  if q.all (fun l => decide (0 ≤ l.not_sold)) then .ok () else .error "sanity check failed"

/-- The `isinstance(sc.op, (tr.Airdrop, tr.CoinLendInterest,
tr.StakingInterest, tr.Commission))` test of `evaluate_sell`. -/
def isLotIncome : OpKind → Bool
  | .airdrop => true
  | .coinLendInterest => true
  | .stakingInterest => true
  | .commission => true
  | _ => false

/-- The `is_taxable` flag computed per consumed lot inside `evaluate_sell`. -/
def is_taxable (cfg : Cfg) (op : Op) (sc : SoldCoin) : Bool :=
  !(cfg.IS_LONG_TERM sc.op.utc_time op.utc_time) &&
    !(isLotIncome sc.op.kind && !(sc.op.coin == cfg.FIAT))

/-- One iteration of the gain-accumulation loop of `evaluate_sell`: the gain
of the consumed lot is only computed when the lot is taxable or unrealized
gains are tracked; it is added to `taxed_gain` (the first component) when the
lot is taxable and to `real_gain` (the second) when unrealized gains are
tracked. -/
def sellGainStep (cfg : Cfg) (op : Op) (sell_value : Rat) (g : Rat × Rat)
    (sc : SoldCoin) : Rat × Rat :=
  if is_taxable cfg op sc || cfg.CALCULATE_UNREALIZED_GAINS then
    let part_sell_value := (sc.sold / op.change) * sell_value
    let sold_coin_cost := cfg.get_cost_sc sc
    let gain := part_sell_value - sold_coin_cost
    ((if is_taxable cfg op sc then g.1 + gain else g.1),
     (if cfg.CALCULATE_UNREALIZED_GAINS then g.2 + gain else g.2))
  else g

/-- The `(taxed_gain, real_gain)` pair accumulated by `evaluate_sell` over the
consumption records. -/
def sellGains (cfg : Cfg) (op : Op) (sell_value : Rat) (sold_coins : List SoldCoin) :
    Rat × Rat :=
  sold_coins.foldl (sellGainStep cfg op sell_value) (0, 0)

/-- `evaluate_sell` of `_evaluate_taxation_GERMANY`: remove the sold coins
from the queue, return no event for the home fiat currency or outside the tax
year (unless forced), and otherwise build the Tax Event from the accumulated
gains. -/
def evaluate_sell (cfg : Cfg) (coin : String) (balance : List Lot) (op : Op)
    (force : Bool) : Except String (List Lot × Option TaxEvent) :=
  match removeAmount op.change balance with
  | none => .error "InsufficientBalance"
  | some (sold_coins, balance') =>
    if coin == cfg.FIAT then .ok (balance', none)
    else if !(in_tax_year cfg op) && !force then .ok (balance', none)
    else
      let sell_value := cfg.get_cost op
      let g := sellGains cfg op sell_value sold_coins
      let remark := sold_coins.map fun sc => (sc.sold, sc.op.utc_time, sc.op.kind)
      .ok (balance', some ⟨"Sonstige Einkünfte", g.1, op, sell_value, g.2, remark⟩)

/-- The mutable `Taxman` evaluation output: the realized `tax_events` list and
the `virtual_tax_events` list. -/
structure TaxmanState where
  tax_events : List TaxEvent
  virtual_tax_events : List TaxEvent
deriving DecidableEq, Repr

/-- The body of the `CoinLendInterest` / `StakingInterest` branch of the
operation loop, shared by both kinds exactly as the `isinstance` tuple shares
it in the source. -/
def interestStep (cfg : Cfg) (coin : String) (balance : List Lot)
    (st : TaxmanState) (op : Op) : Except String (List Lot × TaxmanState) :=
  let balance' := addOp cfg.PRINCIPLE balance op
  if in_tax_year cfg op then
    if cfg.is_fiat coin then
      if op.kind == .stakingInterest then
        .error "You can not stake fiat currencies."
      else
        .ok (balance',
          { st with tax_events :=
              st.tax_events ++ [⟨"Einkünfte aus Kapitalvermögen", cfg.get_cost op, op, 0, 0, []⟩] })
    else
      .ok (balance',
        { st with tax_events :=
            st.tax_events ++ [⟨"Einkünfte aus sonstigen Leistungen", cfg.get_cost op, op, 0, 0, []⟩] })
  else .ok (balance', st)

/-- One iteration of the operation loop of `_evaluate_taxation_GERMANY`: the
`isinstance` dispatch over the operation kinds. -/
def evalOp_GERMANY (cfg : Cfg) (coin : String) (acc : List Lot × TaxmanState)
    (op : Op) : Except String (List Lot × TaxmanState) :=
  let balance := acc.1
  let st := acc.2
  match op.kind with
  | .fee => .error "single fee operations shouldn't exist"
  | .coinLend => .ok (balance, st)
  | .coinLendEnd => .ok (balance, st)
  | .staking => .ok (balance, st)
  | .stakingEnd => .ok (balance, st)
  | .buy => .ok (addOp cfg.PRINCIPLE balance op, st)
  | .sell =>
    match evaluate_sell cfg coin balance op false with
    | .error e => .error e
    | .ok (balance', tx?) =>
      .ok (balance', { st with tax_events := st.tax_events ++ tx?.toList })
  | .coinLendInterest => interestStep cfg coin balance st op
  | .stakingInterest => interestStep cfg coin balance st op
  | .airdrop => .ok (addOp cfg.PRINCIPLE balance op, st)
  | .commission =>
    let balance' := addOp cfg.PRINCIPLE balance op
    if in_tax_year cfg op then
      .ok (balance',
        { st with tax_events :=
            st.tax_events ++ [⟨"Einkünfte aus sonstigen Leistungen", cfg.get_cost op, op, 0, 0, []⟩] })
    else .ok (balance', st)
  | .deposit =>
    if coin == cfg.FIAT then .ok (addOp cfg.PRINCIPLE balance op, st)
    else .ok (balance, st)
  | .withdrawal =>
    if coin == cfg.FIAT then
      match removeAmount op.change balance with
      | none => .error "InsufficientBalance"
      | some r => .ok (r.2, st)
    else .ok (balance, st)
  | .other => .error "NotImplementedError"

/-- The platform of the loop variable `op` after the operation loop: the last
operation's platform (only ever read when the queue is non-empty, hence when
the list is non-empty). -/
def lastPlatform (ops : List Op) : String :=
  match ops.getLast? with
  | some o => o.platform
  | none => ""

/-- `_evaluate_taxation_GERMANY`: fold the operation loop over the group's
operations starting from a fresh queue, run the queue's sanity check, and when
unrealized gains are tracked and coins are left over, evaluate the forced
virtual sell of the whole remaining balance dated `TAX_DEADLINE` and append
its event to the virtual list. -/
def evaluate_taxation_GERMANY (cfg : Cfg) (coin : String) (operations : List Op)
    (st : TaxmanState) : Except String TaxmanState :=
  match operations.foldlM (evalOp_GERMANY cfg coin) (([], st) : List Lot × TaxmanState) with
  | .error e => .error e
  | .ok (balance, st1) =>
    match sanity_check balance with
    | .error e => .error e
    | .ok _ =>
      let left_coin := dsum balance
      if cfg.CALCULATE_UNREALIZED_GAINS && !(left_coin == 0) then
        let virtual_sell : Op :=
          ⟨.sell, TAX_DEADLINE cfg, lastPlatform operations, coin, left_coin⟩
        match evaluate_sell cfg coin balance virtual_sell true with
        | .error e => .error e
        | .ok (_, tx?) =>
          .ok { st1 with virtual_tax_events := st1.virtual_tax_events ++ tx?.toList }
      else .ok st1

/-- `misc.group_by` key order: Python dicts keep insertion order, so group
keys appear in order of first occurrence. -/
def group_keys (key : Op → String) (ops : List Op) : List String :=
  ops.foldl (fun ks op => if ks.contains (key op) then ks else ks ++ [key op]) []

/-- Insert an operation into a time-sorted list after every operation that is
not later, so that insertion in original order is a stable sort. -/
def insertByTime (op : Op) : List Op → List Op
  | [] => [op]
  | o :: os =>
    if timeLeB o.utc_time op.utc_time then o :: insertByTime op os
    else op :: o :: os

/-- `tr.sort_operations(ops, ["utc_time"])`: stable ascending sort by
timestamp (Python's `sorted` is stable). -/
def sort_operations (ops : List Op) : List Op :=
  ops.foldl (fun acc op => insertByTime op acc) []

/-- `Taxman._evaluate_taxation_per_coin`: group by coin, sort each group by
time, and evaluate the groups in turn with the country-specific function. -/
def evaluate_taxation_per_coin (cfg : Cfg) (ops : List Op) (st : TaxmanState) :
    Except String TaxmanState :=
  (group_keys (fun op => op.coin) ops).foldlM
    (fun st c =>
      evaluate_taxation_GERMANY cfg c
        (sort_operations (ops.filter (fun op => op.coin == c))) st)
    st

/-- `Taxman.evaluate_taxation`: assert that no operation happens after the tax
year, then evaluate per platform and coin (multi-depot) or per coin only. -/
def evaluate_taxation (cfg : Cfg) (book : List Op) (st : TaxmanState) :
    Except String TaxmanState :=
  if book.all (fun op => decide (op.utc_time.year ≤ cfg.TAX_YEAR)) then
    if cfg.MULTI_DEPOT then
      (group_keys (fun op => op.platform) book).foldlM
        (fun st p =>
          evaluate_taxation_per_coin cfg (book.filter (fun op => op.platform == p)) st)
        st
    else evaluate_taxation_per_coin cfg book st
  else .error "For tax evaluation, no operation should happen after the tax year."

/-! ### Claim-facing definitions

The taxability predicate and per-lot gain, written the way the specification
words them, to be compared with the computation the source performs. -/

/-- The spec's per-lot gain: the lot's share of the disposal's fiat value
minus the lot's cost basis, at a given `sell_value`. -/
def lotGainAt (cfg : Cfg) (op : Op) (sell_value : Rat) (sc : SoldCoin) : Rat :=
  (sc.sold / op.change) * sell_value - cfg.get_cost_sc sc

/-- The spec's per-lot gain at the disposal's own fiat value. -/
def lotGain (cfg : Cfg) (op : Op) (sc : SoldCoin) : Rat :=
  lotGainAt cfg op (cfg.get_cost op) sc

/-- The spec's taxability test, as worded in the claim: a lot is taxable
unless the holding period is long-term, or the lot originated from an Airdrop,
CoinLendInterest, StakingInterest or Commission operation whose coin is not
the home fiat currency. -/
def lotTaxable (cfg : Cfg) (op : Op) (sc : SoldCoin) : Bool :=
  !(cfg.IS_LONG_TERM sc.op.utc_time op.utc_time ||
    (isLotIncome sc.op.kind && !(sc.op.coin == cfg.FIAT)))

/-! ### Helper lemmas about the gain loop -/

theorem is_taxable_eq_lotTaxable (cfg : Cfg) (op : Op) (sc : SoldCoin) :
    is_taxable cfg op sc = lotTaxable cfg op sc := by
  simp [is_taxable, lotTaxable]

theorem sellGains_foldl_fst (cfg : Cfg) (op : Op) (v : Rat) (scs : List SoldCoin) :
    ∀ g : Rat × Rat,
      (scs.foldl (sellGainStep cfg op v) g).1 =
        g.1 + ((scs.filter (fun sc => is_taxable cfg op sc)).map (lotGainAt cfg op v)).sum := by
  induction scs with
  | nil => intro g; simp
  | cons sc scs ih =>
    intro g
    rw [List.foldl_cons, ih]
    by_cases hT : is_taxable cfg op sc = true
    · simp [sellGainStep, hT, lotGainAt, add_assoc]
    · rw [Bool.not_eq_true] at hT
      by_cases hC : cfg.CALCULATE_UNREALIZED_GAINS = true
      · simp [sellGainStep, hT, hC]
      · rw [Bool.not_eq_true] at hC
        simp [sellGainStep, hT, hC]

theorem sellGains_foldl_snd (cfg : Cfg) (op : Op) (v : Rat) (scs : List SoldCoin)
    (hC : cfg.CALCULATE_UNREALIZED_GAINS = true) :
    ∀ g : Rat × Rat,
      (scs.foldl (sellGainStep cfg op v) g).2 =
        g.2 + (scs.map (lotGainAt cfg op v)).sum := by
  induction scs with
  | nil => intro g; simp
  | cons sc scs ih =>
    intro g
    rw [List.foldl_cons, ih]
    simp [sellGainStep, hC, lotGainAt, add_assoc]

theorem sellGains_fst_le_snd (cfg : Cfg) (op : Op) (v : Rat) (scs : List SoldCoin)
    (hC : cfg.CALCULATE_UNREALIZED_GAINS = true)
    (hg : ∀ sc ∈ scs, is_taxable cfg op sc = false → 0 ≤ lotGainAt cfg op v sc) :
    ∀ g : Rat × Rat, g.1 ≤ g.2 →
      (scs.foldl (sellGainStep cfg op v) g).1 ≤ (scs.foldl (sellGainStep cfg op v) g).2 := by
  induction scs with
  | nil => intro g h; simpa using h
  | cons sc scs ih =>
    intro g h
    rw [List.foldl_cons]
    refine ih (fun x hx => hg x (List.mem_cons_of_mem _ hx)) _ ?_
    have h0 : is_taxable cfg op sc = false → 0 ≤ lotGainAt cfg op v sc :=
      hg sc (List.mem_cons_self _ _)
    by_cases hT : is_taxable cfg op sc = true
    · simp only [sellGainStep, hT, hC, Bool.true_or, if_true]
      exact add_le_add_right h _
    · rw [Bool.not_eq_true] at hT
      have h1 : 0 ≤ lotGainAt cfg op v sc := h0 hT
      simp [sellGainStep, hT, hC]
      unfold lotGainAt at h1
      linarith

/-! ### Frame lemmas

The evaluator only ever appends to the two event lists and never reads them,
so evaluation from any starting state is evaluation from the empty state with
the starting lists prepended. -/

/-- Prepend the lists of `st` to the lists of `s`. -/
def appendSt (st s : TaxmanState) : TaxmanState :=
  ⟨st.tax_events ++ s.tax_events, st.virtual_tax_events ++ s.virtual_tax_events⟩

theorem appendSt_emptyR (st : TaxmanState) : appendSt st ⟨[], []⟩ = st := by
  simp [appendSt]

theorem appendSt_assoc (a b c : TaxmanState) :
    appendSt (appendSt a b) c = appendSt a (appendSt b c) := by
  simp [appendSt]

theorem evalOp_frame (cfg : Cfg) (coin : String) (q : List Lot) (st : TaxmanState)
    (op : Op) :
    evalOp_GERMANY cfg coin (q, st) op =
      (evalOp_GERMANY cfg coin (q, ⟨[], []⟩) op).map (fun r => (r.1, appendSt st r.2)) := by
  cases hk : op.kind
  case fee => simp [evalOp_GERMANY, hk, Except.map]
  case coinLend => simp [evalOp_GERMANY, hk, Except.map, appendSt_emptyR]
  case coinLendEnd => simp [evalOp_GERMANY, hk, Except.map, appendSt_emptyR]
  case staking => simp [evalOp_GERMANY, hk, Except.map, appendSt_emptyR]
  case stakingEnd => simp [evalOp_GERMANY, hk, Except.map, appendSt_emptyR]
  case buy => simp [evalOp_GERMANY, hk, Except.map, appendSt_emptyR]
  case airdrop => simp [evalOp_GERMANY, hk, Except.map, appendSt_emptyR]
  case other => simp [evalOp_GERMANY, hk, Except.map]
  case sell =>
    simp only [evalOp_GERMANY, hk]
    cases h : evaluate_sell cfg coin q op false with
    | error e => simp [Except.map]
    | ok r =>
      obtain ⟨b, t⟩ := r
      simp [Except.map, appendSt]
  case deposit =>
    simp only [evalOp_GERMANY, hk]
    split <;> simp [Except.map, appendSt, appendSt_emptyR]
  case withdrawal =>
    simp only [evalOp_GERMANY, hk]
    split
    · cases h : removeAmount op.change q with
      | none => simp [Except.map]
      | some r => simp [Except.map, appendSt_emptyR]
    · simp [Except.map, appendSt_emptyR]
  case commission =>
    simp only [evalOp_GERMANY, hk]
    split <;> simp [Except.map, appendSt, appendSt_emptyR]
  case coinLendInterest =>
    simp only [evalOp_GERMANY, hk, interestStep]
    split
    · split <;> simp [Except.map, appendSt, appendSt_emptyR]
    · simp [Except.map, appendSt_emptyR]
  case stakingInterest =>
    simp only [evalOp_GERMANY, hk, interestStep]
    split
    · split <;> simp [Except.map, appendSt, appendSt_emptyR]
    · simp [Except.map, appendSt_emptyR]

theorem foldOps_frame (cfg : Cfg) (coin : String) (ops : List Op) :
    ∀ (q : List Lot) (st : TaxmanState),
      ops.foldlM (evalOp_GERMANY cfg coin) (q, st) =
        (ops.foldlM (evalOp_GERMANY cfg coin) (q, (⟨[], []⟩ : TaxmanState))).map
          (fun r => (r.1, appendSt st r.2)) := by
  induction ops with
  | nil => intro q st; simp [Except.map, appendSt_emptyR, pure, Pure.pure, Except.pure]
  | cons o os ih =>
    intro q st
    rw [List.foldlM_cons, List.foldlM_cons, evalOp_frame]
    cases h : evalOp_GERMANY cfg coin (q, ⟨[], []⟩) o with
    | error e => simp [Except.map, Except.bind, Bind.bind]
    | ok r =>
      obtain ⟨q1, d⟩ := r
      simp only [Except.map, Except.bind, Bind.bind]
      rw [ih q1 (appendSt st d), ih q1 d]
      cases hf : os.foldlM (evalOp_GERMANY cfg coin) (q1, (⟨[], []⟩ : TaxmanState)) with
      | error e => simp [Except.map]
      | ok r' => simp [Except.map, appendSt_assoc]

theorem evaluate_taxation_GERMANY_frame (cfg : Cfg) (coin : String) (ops : List Op)
    (st : TaxmanState) :
    evaluate_taxation_GERMANY cfg coin ops st =
      (evaluate_taxation_GERMANY cfg coin ops ⟨[], []⟩).map (appendSt st) := by
  simp only [evaluate_taxation_GERMANY]
  rw [foldOps_frame]
  cases hf : ops.foldlM (evalOp_GERMANY cfg coin) (([], ⟨[], []⟩) : List Lot × TaxmanState) with
  | error e => simp [Except.map]
  | ok r =>
    obtain ⟨balance, s1⟩ := r
    simp only [Except.map]
    cases hs : sanity_check balance with
    | error e => simp
    | ok u =>
      simp only
      split
      · cases hv : evaluate_sell cfg coin balance
            ⟨.sell, TAX_DEADLINE cfg, lastPlatform ops, coin, dsum balance⟩ true with
        | error e => simp
        | ok r' =>
          obtain ⟨b', tx?⟩ := r'
          simp [appendSt]
      · simp

theorem foldState_frame {α : Type} (l : List α)
    (f : α → TaxmanState → Except String TaxmanState)
    (hf : ∀ a st, f a st = (f a ⟨[], []⟩).map (appendSt st)) :
    ∀ st : TaxmanState,
      l.foldlM (fun st a => f a st) st =
        (l.foldlM (fun st a => f a st) ⟨[], []⟩).map (appendSt st) := by
  induction l with
  | nil => intro st; simp [Except.map, appendSt_emptyR, pure, Pure.pure, Except.pure]
  | cons a l ih =>
    intro st
    rw [List.foldlM_cons, List.foldlM_cons, hf]
    cases h : f a ⟨[], []⟩ with
    | error e => simp [Except.map, Except.bind, Bind.bind]
    | ok d =>
      simp only [Except.map, Except.bind, Bind.bind]
      rw [ih (appendSt st d), ih d]
      cases hl : l.foldlM (fun st a => f a st) ⟨[], []⟩ with
      | error e => simp [Except.map]
      | ok r => simp [Except.map, appendSt_assoc]

theorem evaluate_taxation_per_coin_frame (cfg : Cfg) (ops : List Op) (st : TaxmanState) :
    evaluate_taxation_per_coin cfg ops st =
      (evaluate_taxation_per_coin cfg ops ⟨[], []⟩).map (appendSt st) := by
  simp only [evaluate_taxation_per_coin]
  exact foldState_frame _ _
    (fun c st' => evaluate_taxation_GERMANY_frame cfg c
      (sort_operations (ops.filter (fun op => op.coin == c))) st') st

theorem evaluate_taxation_frame (cfg : Cfg) (book : List Op) (st : TaxmanState) :
    evaluate_taxation cfg book st =
      (evaluate_taxation cfg book ⟨[], []⟩).map (appendSt st) := by
  simp only [evaluate_taxation]
  split
  · split
    · exact foldState_frame _ _
        (fun p st' => evaluate_taxation_per_coin_frame cfg
          (book.filter (fun op => op.platform == p)) st') st
    · exact evaluate_taxation_per_coin_frame cfg book st
  · simp [Except.map]

/-! ### Concrete test fixtures

A small concrete configuration and ledger used to instantiate witnesses and
counterexamples: tax year 2021, home fiat EUR, FIFO, a one-year long-term
threshold on calendar years, cost basis 100 per coin at disposal time and 50
per coin at acquisition time. -/

def cfgX : Cfg where
  TAX_YEAR := 2021
  FIAT := "EUR"
  is_fiat := fun c => c == "EUR"
  IS_LONG_TERM := fun a b => decide (a.year < b.year - 1)
  CALCULATE_UNREALIZED_GAINS := false
  PRINCIPLE := .fifo
  MULTI_DEPOT := false
  now := ⟨2022, 100⟩
  get_cost := fun op => op.change * 100
  get_cost_sc := fun sc => sc.sold * 50

/-- The same configuration with unrealized-gain tracking enabled. -/
def cfgU : Cfg := { cfgX with CALCULATE_UNREALIZED_GAINS := true }

def buyX : Op := ⟨.buy, ⟨2021, 10⟩, "binance", "BTC", 1⟩

def buyOldX : Op := ⟨.buy, ⟨2019, 0⟩, "binance", "BTC", 1⟩

def sellX : Op := ⟨.sell, ⟨2021, 20⟩, "binance", "BTC", 1⟩

def feeX : Op := ⟨.fee, ⟨2021, 30⟩, "binance", "BTC", 1⟩

def depositX : Op := ⟨.deposit, ⟨2021, 40⟩, "binance", "BTC", 1⟩

def stakingIntX : Op := ⟨.stakingInterest, ⟨2021, 50⟩, "binance", "EUR", 1⟩

/-! ### Claims -/

/-- C1: for every Sell of a non-fiat coin evaluated within the tax year (or
with force), the event's `taxed_gain` accumulates, over the consumed lots,
exactly the gains of the taxable lots, where a lot is taxable unless the
holding period from the lot's origin-operation time to the disposal time
exceeds the long-term threshold, or the lot originated from an Airdrop,
CoinLendInterest, StakingInterest or Commission operation whose coin is not
the home fiat currency. -/
theorem C1_lot_taxability (cfg : Cfg) (coin : String) (q : List Lot) (op : Op)
    (force : Bool) (scs : List SoldCoin) (qr q' : List Lot) (ev : TaxEvent)
    (hcoin : coin ≠ cfg.FIAT)
    (hyear : in_tax_year cfg op = true ∨ force = true)
    (hrem : removeAmount op.change q = some (scs, qr))
    (hok : evaluate_sell cfg coin q op force = .ok (q', some ev)) :
    ev.taxed_gain =
      ((scs.filter (fun sc => lotTaxable cfg op sc)).map (lotGain cfg op)).sum := by
  have hc : (coin == cfg.FIAT) = false := by simpa using hcoin
  have hy : (!(in_tax_year cfg op) && !force) = false := by
    rcases hyear with h | h <;> simp [h]
  unfold evaluate_sell at hok
  rw [hrem] at hok
  simp only [hc, hy, Bool.false_eq_true, if_false, Except.ok.injEq, Prod.mk.injEq,
    Option.some.injEq] at hok
  obtain ⟨-, hev⟩ := hok
  rw [← hev]
  show (sellGains cfg op (cfg.get_cost op) scs).1 = _
  rw [sellGains, sellGains_foldl_fst]
  simp only [is_taxable_eq_lotTaxable, zero_add]
  rfl

/-- Concrete Tax Event produced by selling one short-term BTC lot bought for
50 at disposal value 100 under `cfgX`. -/
def evC1 : TaxEvent := ⟨"Sonstige Einkünfte", 50, sellX, 100, 0, [(1, ⟨2021, 10⟩, .buy)]⟩

/-- Witness for C1 at a concrete input. -/
theorem C1_lot_taxability_witness :
    evC1.taxed_gain =
      ((([⟨buyX, 1⟩] : List SoldCoin).filter (fun sc => lotTaxable cfgX sellX sc)).map
        (lotGain cfgX sellX)).sum :=
  C1_lot_taxability cfgX "BTC" [⟨buyX, 1⟩] sellX false [⟨buyX, 1⟩] [] [] evC1
    (by decide) (Or.inl (by decide))
    (by decide)
    (by
      simp +decide [evaluate_sell, removeAmount, sellGains, sellGainStep, is_taxable,
        isLotIncome, in_tax_year, cfgX, buyX, sellX, evC1]
      norm_num)

/-- A successful `evaluate_sell` returns an event exactly when the coin is not
the home fiat currency and the sell is in the tax year or forced — taxability
and the unrealized-gains flag play no role in the decision. -/
theorem evaluate_sell_event_isSome (cfg : Cfg) (coin : String) (q : List Lot) (op : Op)
    (force : Bool) (b : List Lot) (tx? : Option TaxEvent)
    (h : evaluate_sell cfg coin q op force = .ok (b, tx?)) :
    tx?.isSome = (!(coin == cfg.FIAT) && (in_tax_year cfg op || force)) := by
  unfold evaluate_sell at h
  cases hrem : removeAmount op.change q with
  | none => rw [hrem] at h; simp at h
  | some p =>
    obtain ⟨scs, qb⟩ := p
    rw [hrem] at h
    dsimp only at h
    by_cases h1 : (coin == cfg.FIAT) = true
    · rw [if_pos h1] at h
      simp only [Except.ok.injEq, Prod.mk.injEq] at h
      obtain ⟨-, htx⟩ := h
      rw [← htx]
      simp [h1]
    · rw [if_neg h1] at h
      rw [Bool.not_eq_true] at h1
      by_cases h2 : (!(in_tax_year cfg op) && !force) = true
      · rw [if_pos h2] at h
        simp only [Except.ok.injEq, Prod.mk.injEq] at h
        obtain ⟨-, htx⟩ := h
        rw [← htx]
        simp only [Bool.and_eq_true, Bool.not_eq_true'] at h2
        simp [h2.1, h2.2]
      · rw [if_neg h2] at h
        simp only [Except.ok.injEq, Prod.mk.injEq] at h
        obtain ⟨-, htx⟩ := h
        subst htx
        cases hy : in_tax_year cfg op <;> cases hf : force <;> simp_all [beq_iff_eq]

/-- Concrete Tax Event produced by selling one long-term BTC lot under `cfgX`
(no gain is computed: the lot is exempt and unrealized tracking is off). -/
def evC2 : TaxEvent := ⟨"Sonstige Einkünfte", 0, sellX, 100, 0, [(1, ⟨2019, 0⟩, .buy)]⟩

/-- Counterexample to C2 as stated: a Sell of a non-fiat coin inside the tax
year whose only consumed lot is not taxable, with unrealized-gain tracking
disabled, still emits a realized Tax Event (with `taxed_gain = 0`). -/
theorem C2_emission_counterexample :
    evalOp_GERMANY cfgX "BTC" ([⟨buyOldX, 1⟩], ⟨[], []⟩) sellX = .ok ([], ⟨[evC2], []⟩) ∧
    lotTaxable cfgX sellX ⟨buyOldX, 1⟩ = false ∧
    cfgX.CALCULATE_UNREALIZED_GAINS = false := by
  refine ⟨?_, by decide, by decide⟩
  simp +decide [evalOp_GERMANY, evaluate_sell, removeAmount, sellGains, sellGainStep,
    is_taxable, isLotIncome, in_tax_year, cfgX, buyOldX, sellX, evC2]

/-- C2 amended: evaluating a Sell through the operation loop emits a realized
Tax Event if and only if the disposed coin is not the home fiat currency and
the disposal falls within the active tax year; whether the disposal is taxable
or unrealized-gain tracking is enabled does not influence emission, and the
virtual list is untouched.  (The `force` escape applies only to the synthetic
end-of-year liquidation, whose event goes to the virtual list.) -/
theorem C2_sell_event_iff (cfg : Cfg) (coin : String) (q : List Lot) (st : TaxmanState)
    (op : Op) (q' : List Lot) (st' : TaxmanState)
    (hk : op.kind = .sell)
    (hok : evalOp_GERMANY cfg coin (q, st) op = .ok (q', st')) :
    st'.virtual_tax_events = st.virtual_tax_events ∧
    ((∃ ev, st'.tax_events = st.tax_events ++ [ev]) ↔
      (coin ≠ cfg.FIAT ∧ in_tax_year cfg op = true)) := by
  simp only [evalOp_GERMANY, hk] at hok
  cases h : evaluate_sell cfg coin q op false with
  | error e => rw [h] at hok; simp at hok
  | ok r =>
    obtain ⟨b, tx?⟩ := r
    rw [h] at hok
    simp only [Except.ok.injEq, Prod.mk.injEq] at hok
    obtain ⟨-, hst⟩ := hok
    rw [← hst]
    have hiss := evaluate_sell_event_isSome cfg coin q op false b tx? h
    refine ⟨rfl, ?_⟩
    cases tx? with
    | none =>
      simp only [Option.isSome_none] at hiss
      constructor
      · intro ⟨ev, hev⟩
        exfalso
        simp at hev
      · intro ⟨hne, hy⟩
        exfalso
        have : (coin == cfg.FIAT) = false := by simpa using hne
        rw [this, hy] at hiss
        simp at hiss
    | some ev =>
      simp only [Option.isSome_some] at hiss
      have hiss' := hiss.symm
      rw [Bool.and_eq_true, Bool.not_eq_true'] at hiss'
      constructor
      · intro _
        refine ⟨by simpa using hiss'.1, ?_⟩
        have := hiss'.2
        simpa using this
      · intro _
        exact ⟨ev, by simp⟩

/-- Witness for the amended C2 at a concrete input: the short-term in-year
sell emits exactly one event. -/
theorem C2_sell_event_iff_witness :
    (⟨[evC1], []⟩ : TaxmanState).virtual_tax_events = (⟨[], []⟩ : TaxmanState).virtual_tax_events ∧
    ((∃ ev, (⟨[evC1], []⟩ : TaxmanState).tax_events = (⟨[], []⟩ : TaxmanState).tax_events ++ [ev]) ↔
      ("BTC" ≠ cfgX.FIAT ∧ in_tax_year cfgX sellX = true)) :=
  C2_sell_event_iff cfgX "BTC" [⟨buyX, 1⟩] ⟨[], []⟩ sellX [] ⟨[evC1], []⟩ rfl
    (by
      simp +decide [evalOp_GERMANY, evaluate_sell, removeAmount, sellGains, sellGainStep,
        is_taxable, isLotIncome, in_tax_year, cfgX, buyX, sellX, evC1]
      norm_num)

/-- Counterexample to C3 as stated: with unrealized-gain tracking disabled, a
taxable in-year sell yields a Tax Event with `taxed_gain = 50` but
`real_gain = 0`, so `taxed_gain ≤ real_gain` fails. -/
theorem C3_invariant_counterexample :
    evaluate_sell cfgX "BTC" [⟨buyX, 1⟩] sellX false = .ok ([], some evC1) ∧
    cfgX.CALCULATE_UNREALIZED_GAINS = false ∧
    ¬(evC1.taxed_gain ≤ evC1.real_gain) := by
  refine ⟨?_, by decide, by norm_num [evC1]⟩
  simp +decide [evaluate_sell, removeAmount, sellGains, sellGainStep, is_taxable,
    isLotIncome, in_tax_year, cfgX, buyX, sellX, evC1]
  norm_num

/-- C3 amended: when unrealized-gain tracking is enabled — so that `real_gain`
is computed at all — every Tax Event produced by `evaluate_sell` satisfies
`taxed_gain ≤ real_gain`, provided each consumed lot that is exempt from
taxation has a non-negative gain (exemptions then only reduce the taxed
portion). -/
theorem C3_taxed_le_real (cfg : Cfg) (coin : String) (q : List Lot) (op : Op)
    (force : Bool) (scs : List SoldCoin) (qr q' : List Lot) (ev : TaxEvent)
    (hcalc : cfg.CALCULATE_UNREALIZED_GAINS = true)
    (hrem : removeAmount op.change q = some (scs, qr))
    (hg : ∀ sc ∈ scs, lotTaxable cfg op sc = false → 0 ≤ lotGain cfg op sc)
    (hok : evaluate_sell cfg coin q op force = .ok (q', some ev)) :
    ev.taxed_gain ≤ ev.real_gain := by
  unfold evaluate_sell at hok
  rw [hrem] at hok
  dsimp only at hok
  by_cases h1 : (coin == cfg.FIAT) = true
  · rw [if_pos h1] at hok
    simp at hok
  · rw [if_neg h1] at hok
    by_cases h2 : (!(in_tax_year cfg op) && !force) = true
    · rw [if_pos h2] at hok
      simp at hok
    · rw [if_neg h2] at hok
      simp only [Except.ok.injEq, Prod.mk.injEq, Option.some.injEq] at hok
      obtain ⟨-, hev⟩ := hok
      rw [← hev]
      exact sellGains_fst_le_snd cfg op (cfg.get_cost op) scs hcalc
        (fun sc hsc hnt => by
          rw [is_taxable_eq_lotTaxable] at hnt
          exact hg sc hsc hnt)
        (0, 0) le_rfl

/-- Concrete Tax Event from the short-term sell under `cfgU` (tracking on). -/
def evC3 : TaxEvent := ⟨"Sonstige Einkünfte", 50, sellX, 100, 50, [(1, ⟨2021, 10⟩, .buy)]⟩

/-- Witness for the amended C3 at a concrete input. -/
theorem C3_taxed_le_real_witness : evC3.taxed_gain ≤ evC3.real_gain :=
  C3_taxed_le_real cfgU "BTC" [⟨buyX, 1⟩] sellX false [⟨buyX, 1⟩] [] [] evC3
    rfl (by decide) (by decide)
    (by
      simp +decide [evaluate_sell, removeAmount, sellGains, sellGainStep, is_taxable,
        isLotIncome, in_tax_year, cfgU, cfgX, buyX, sellX, evC3]
      norm_num)

/-- A concrete two-operation ledger: buy one BTC, then sell it, in 2021. -/
def bookX : List Op := [buyX, sellX]

/-- Counterexample to C4 as stated: running `evaluate_taxation` twice on the
same `Taxman` state does not yield identical event lists — the second run
appends a second copy of the events to the lists left by the first run. -/
theorem C4_idempotence_counterexample :
    ((evaluate_taxation cfgX bookX ⟨[], []⟩).bind (evaluate_taxation cfgX bookX)).toOption ≠
      (evaluate_taxation cfgX bookX ⟨[], []⟩).toOption := by
  simp +decide [evaluate_taxation, evaluate_taxation_per_coin, group_keys, sort_operations,
    insertByTime, evaluate_taxation_GERMANY, evalOp_GERMANY, evaluate_sell, removeAmount,
    sellGains, sellGainStep, is_taxable, isLotIncome, addOp, dsum, sanity_check, in_tax_year,
    timeLeB, minTime, interestStep, lastPlatform, TAX_DEADLINE, cfgX, bookX, buyX, sellX,
    Except.bind, Bind.bind, Except.toOption, Except.pure, pure, Pure.pure]

/-- C4 amended: evaluation is deterministic — each run of `evaluate_taxation`
on the same ledger and configuration computes the same event lists — but the
lists accumulate on the `Taxman` state, so running it twice on the same state
yields each list duplicated, not the single-run lists. -/
theorem C4_determinism_append (cfg : Cfg) (book : List Op) (E V : List TaxEvent)
    (h : evaluate_taxation cfg book ⟨[], []⟩ = .ok ⟨E, V⟩) :
    (evaluate_taxation cfg book ⟨[], []⟩).bind (evaluate_taxation cfg book) =
      .ok ⟨E ++ E, V ++ V⟩ := by
  rw [h]
  have hb : (Except.ok (⟨E, V⟩ : TaxmanState) : Except String TaxmanState).bind
      (evaluate_taxation cfg book) = evaluate_taxation cfg book ⟨E, V⟩ := rfl
  rw [hb, evaluate_taxation_frame, h]
  simp [Except.map, appendSt]

/-- Witness for the amended C4 at a concrete input. -/
theorem C4_determinism_append_witness :
    (evaluate_taxation cfgX bookX ⟨[], []⟩).bind (evaluate_taxation cfgX bookX) =
      .ok ⟨[evC1] ++ [evC1], [] ++ []⟩ :=
  C4_determinism_append cfgX bookX [evC1] []
    (by
      simp +decide [evaluate_taxation, evaluate_taxation_per_coin, group_keys,
        sort_operations, insertByTime, evaluate_taxation_GERMANY, evalOp_GERMANY,
        evaluate_sell, removeAmount, sellGains, sellGainStep, is_taxable, isLotIncome,
        addOp, dsum, sanity_check, in_tax_year, timeLeB, minTime, interestStep,
        lastPlatform, TAX_DEADLINE, cfgX, bookX, buyX, sellX, evC1,
        Except.bind, Bind.bind, Except.pure, pure, Pure.pure]
      norm_num)

/-- C5: after the operation loop of a group leaves a positive balance and
unrealized-gain tracking is enabled, the group evaluation reduces to running
the same gain algorithm, forced, on a virtual Sell dated
`min(year-end 23:59:59, evaluation time)` that disposes of the entire
remaining balance, appending its event (when any) to the virtual list only —
the realized list of the result is exactly the loop's realized list. -/
theorem C5_unrealized_projection (cfg : Cfg) (coin : String) (ops : List Op)
    (st : TaxmanState) (balance : List Lot) (st1 : TaxmanState)
    (hfold : ops.foldlM (evalOp_GERMANY cfg coin) (([], st) : List Lot × TaxmanState) =
      .ok (balance, st1))
    (hsan : sanity_check balance = .ok ())
    (hcalc : cfg.CALCULATE_UNREALIZED_GAINS = true)
    (hleft : 0 < dsum balance) :
    evaluate_taxation_GERMANY cfg coin ops st =
      (evaluate_sell cfg coin balance
          ⟨.sell, minTime ⟨cfg.TAX_YEAR, endOfYearSec⟩ cfg.now, lastPlatform ops, coin,
            dsum balance⟩ true).map
        (fun r => { st1 with virtual_tax_events := st1.virtual_tax_events ++ r.2.toList }) := by
  unfold evaluate_taxation_GERMANY
  rw [hfold]
  dsimp only
  rw [hsan]
  dsimp only
  have hz : (dsum balance == 0) = false := by
    simp only [beq_eq_false_iff_ne, ne_eq]
    exact fun h => absurd (h ▸ hleft) (lt_irrefl 0)
  rw [hcalc, hz]
  simp only [Bool.not_false, Bool.and_true, if_true, TAX_DEADLINE]
  cases h : evaluate_sell cfg coin balance
      ⟨.sell, minTime ⟨cfg.TAX_YEAR, endOfYearSec⟩ cfg.now, lastPlatform ops, coin,
        dsum balance⟩ true with
  | error e => simp [Except.map]
  | ok r =>
    obtain ⟨b', tx?⟩ := r
    simp [Except.map]

/-- Witness for C5 at a concrete input: one bought lot left over. -/
theorem C5_unrealized_projection_witness :
    evaluate_taxation_GERMANY cfgU "BTC" [buyX] ⟨[], []⟩ =
      (evaluate_sell cfgU "BTC" [⟨buyX, 1⟩]
          ⟨.sell, minTime ⟨cfgU.TAX_YEAR, endOfYearSec⟩ cfgU.now, lastPlatform [buyX], "BTC",
            dsum [⟨buyX, 1⟩]⟩ true).map
        (fun r => (⟨[], r.2.toList⟩ : TaxmanState)) :=
  C5_unrealized_projection cfgU "BTC" [buyX] ⟨[], []⟩ [⟨buyX, 1⟩] ⟨[], []⟩
    (by
      simp +decide [List.foldlM, evalOp_GERMANY, addOp, cfgU, cfgX, buyX,
        Except.bind, Bind.bind, Except.pure, pure, Pure.pure])
    (by simp +decide [sanity_check]) rfl (by norm_num [dsum, buyX])

/-- Any bad operation (standalone fee or unrecognized kind) anywhere in the
list makes the operation-loop fold fail. -/
theorem foldOps_error_of_bad (cfg : Cfg) (coin : String) :
    ∀ (ops : List Op) (acc : List Lot × TaxmanState) (op : Op),
      op ∈ ops → (op.kind = .fee ∨ op.kind = .other) →
      ∃ e, ops.foldlM (evalOp_GERMANY cfg coin) acc = .error e := by
  intro ops
  induction ops with
  | nil => intro acc op h; exact absurd h (List.not_mem_nil op)
  | cons o os ih =>
    intro acc op hmem hk
    rw [List.foldlM_cons]
    rcases List.mem_cons.mp hmem with heq | hmem'
    · subst heq
      rcases hk with hk | hk
      · exact ⟨"single fee operations shouldn't exist",
          by simp [evalOp_GERMANY, hk, Except.bind, Bind.bind]⟩
      · exact ⟨"NotImplementedError",
          by simp [evalOp_GERMANY, hk, Except.bind, Bind.bind]⟩
    · cases h : evalOp_GERMANY cfg coin acc o with
      | error e => exact ⟨e, by simp [h, Except.bind, Bind.bind]⟩
      | ok acc' =>
        obtain ⟨e, he⟩ := ih acc' op hmem' hk
        exact ⟨e, by simp [h, he, Except.bind, Bind.bind]⟩

/-- C6: evaluating a group fails fatally whenever the operation sequence
contains a standalone Fee operation or an operation of unrecognized kind — no
state and no further Tax Events are produced for the group. -/
theorem C6_fatal_fee_or_unknown (cfg : Cfg) (coin : String) (ops : List Op)
    (st : TaxmanState) (op : Op)
    (hmem : op ∈ ops) (hk : op.kind = .fee ∨ op.kind = .other) :
    ∃ e, evaluate_taxation_GERMANY cfg coin ops st = .error e := by
  obtain ⟨e, he⟩ := foldOps_error_of_bad cfg coin ops ([], st) op hmem hk
  exact ⟨e, by simp [evaluate_taxation_GERMANY, he]⟩

/-- Witness for C6 at a concrete input: a single standalone fee. -/
theorem C6_fatal_fee_or_unknown_witness :
    ∃ e, evaluate_taxation_GERMANY cfgX "BTC" [feeX] ⟨[], []⟩ = .error e :=
  C6_fatal_fee_or_unknown cfgX "BTC" [feeX] ⟨[], []⟩ feeX (by simp) (Or.inl rfl)

/-- C7: a Deposit of the home fiat currency is added to the balance queue and
a Withdrawal of it is removed from the queue (raising on insufficient
balance); for any other coin the operation is skipped — queue and state are
unchanged and no error is raised — and evaluation continues. -/
theorem C7_deposit_withdrawal (cfg : Cfg) (coin : String) (q : List Lot)
    (st : TaxmanState) (op : Op) :
    (op.kind = .deposit → coin = cfg.FIAT →
      evalOp_GERMANY cfg coin (q, st) op = .ok (addOp cfg.PRINCIPLE q op, st)) ∧
    (op.kind = .deposit → coin ≠ cfg.FIAT →
      evalOp_GERMANY cfg coin (q, st) op = .ok (q, st)) ∧
    (op.kind = .withdrawal → coin = cfg.FIAT →
      evalOp_GERMANY cfg coin (q, st) op =
        (match removeAmount op.change q with
         | none => .error "InsufficientBalance"
         | some r => .ok (r.2, st))) ∧
    (op.kind = .withdrawal → coin ≠ cfg.FIAT →
      evalOp_GERMANY cfg coin (q, st) op = .ok (q, st)) := by
  refine ⟨fun hk hc => ?_, fun hk hc => ?_, fun hk hc => ?_, fun hk hc => ?_⟩ <;>
    simp [evalOp_GERMANY, hk, hc]

/-- Witness for C7 at a concrete input: a skipped non-fiat deposit. -/
theorem C7_deposit_withdrawal_witness :
    evalOp_GERMANY cfgX "BTC" ([], ⟨[], []⟩) depositX = .ok ([], ⟨[], []⟩) :=
  (C7_deposit_withdrawal cfgX "BTC" [] ⟨[], []⟩ depositX).2.1 rfl (by decide)

/-- An operation dated after the configured tax year. -/
def lateX : Op := ⟨.buy, ⟨2022, 0⟩, "binance", "BTC", 1⟩

/-- C8: `evaluate_taxation` requires every operation's year to be at most the
configured tax year and fails fatally, before evaluating any group, when some
operation has a later timestamp. -/
theorem C8_tax_year_precondition (cfg : Cfg) (book : List Op) (st : TaxmanState)
    (op : Op) (hmem : op ∈ book) (hyr : cfg.TAX_YEAR < op.utc_time.year) :
    evaluate_taxation cfg book st =
      .error "For tax evaluation, no operation should happen after the tax year." := by
  have hall : book.all (fun op => decide (op.utc_time.year ≤ cfg.TAX_YEAR)) = false := by
    by_contra h
    rw [Bool.not_eq_false, List.all_eq_true] at h
    have h2 := h op hmem
    simp only [decide_eq_true_eq] at h2
    exact absurd h2 (not_le.mpr hyr)
  simp [evaluate_taxation, hall]

/-- Witness for C8 at a concrete input: one operation dated 2022 against tax
year 2021. -/
theorem C8_tax_year_precondition_witness :
    evaluate_taxation cfgX [lateX] ⟨[], []⟩ =
      .error "For tax evaluation, no operation should happen after the tax year." :=
  C8_tax_year_precondition cfgX [lateX] ⟨[], []⟩ lateX (by simp) (by decide)

/-- C9: a Sell of the home fiat currency still removes the disposed amount
from the balance queue before returning with no Tax Event — the queue state
changes exactly as the removal dictates, and an insufficient balance still
raises. -/
theorem C9_fiat_sell_removes (cfg : Cfg) (coin : String) (q : List Lot) (op : Op)
    (force : Bool) (hcoin : coin = cfg.FIAT) :
    (removeAmount op.change q = none →
      evaluate_sell cfg coin q op force = .error "InsufficientBalance") ∧
    (∀ scs qr, removeAmount op.change q = some (scs, qr) →
      evaluate_sell cfg coin q op force = .ok (qr, none)) := by
  constructor
  · intro h
    simp [evaluate_sell, h]
  · intro scs qr h
    simp [evaluate_sell, h, hcoin]

/-- A one-EUR buy and the fiat sell consuming it. -/
def buyEURX : Op := ⟨.buy, ⟨2021, 5⟩, "binance", "EUR", 1⟩

def sellEURX : Op := ⟨.sell, ⟨2021, 60⟩, "binance", "EUR", 1⟩

/-- Witness for C9 at a concrete input: the fiat sell consumes the queue's
only lot and produces no event. -/
theorem C9_fiat_sell_removes_witness :
    evaluate_sell cfgX "EUR" [⟨buyEURX, 1⟩] sellEURX false = .ok ([], none) :=
  (C9_fiat_sell_removes cfgX "EUR" [⟨buyEURX, 1⟩] sellEURX false rfl).2
    [⟨buyEURX, 1⟩] [] (by decide)

/-- Every Tax Event produced by `evaluate_sell` carries the taxation type
`Sonstige Einkünfte`. -/
theorem evaluate_sell_type (cfg : Cfg) (coin : String) (q : List Lot) (op : Op)
    (force : Bool) (b : List Lot) (ev : TaxEvent)
    (h : evaluate_sell cfg coin q op force = .ok (b, some ev)) :
    ev.taxation_type = "Sonstige Einkünfte" := by
  unfold evaluate_sell at h
  cases hrem : removeAmount op.change q with
  | none => rw [hrem] at h; simp at h
  | some p =>
    obtain ⟨scs, qb⟩ := p
    rw [hrem] at h
    dsimp only at h
    by_cases h1 : (coin == cfg.FIAT) = true
    · rw [if_pos h1] at h
      simp at h
    · rw [if_neg h1] at h
      by_cases h2 : (!(in_tax_year cfg op) && !force) = true
      · rw [if_pos h2] at h
        simp at h
      · rw [if_neg h2] at h
        simp only [Except.ok.injEq, Prod.mk.injEq, Option.some.injEq] at h
        obtain ⟨-, hev⟩ := h
        rw [← hev]

/-- C10: a StakingInterest operation on a fiat coin inside the tax year makes
the evaluation abort with the assertion `You can not stake fiat currencies.`,
and the fiat passive-income category `Einkünfte aus Kapitalvermögen` is
reachable only through a CoinLendInterest operation on a fiat coin: any event
with that category that the step adds comes from such an operation. -/
theorem C10_staking_fiat (cfg : Cfg) (coin : String) (q : List Lot)
    (st : TaxmanState) (op : Op) :
    (op.kind = .stakingInterest → cfg.is_fiat coin = true → in_tax_year cfg op = true →
      evalOp_GERMANY cfg coin (q, st) op = .error "You can not stake fiat currencies.") ∧
    (∀ (q' : List Lot) (st' : TaxmanState) (ev : TaxEvent),
      evalOp_GERMANY cfg coin (q, st) op = .ok (q', st') →
      ev ∈ st'.tax_events → ev.taxation_type = "Einkünfte aus Kapitalvermögen" →
      ev ∈ st.tax_events ∨ (op.kind = .coinLendInterest ∧ cfg.is_fiat coin = true)) := by
  constructor
  · intro hk hf hy
    simp [evalOp_GERMANY, hk, interestStep, hy, hf]
  · intro q' st' ev hok hmem htype
    cases hk : op.kind <;> simp only [evalOp_GERMANY, hk, interestStep] at hok
    case fee => simp at hok
    case other => simp at hok
    case coinLend | coinLendEnd | staking | stakingEnd | buy | airdrop =>
      simp only [Except.ok.injEq, Prod.mk.injEq] at hok
      obtain ⟨-, h2⟩ := hok
      rw [← h2] at hmem
      exact Or.inl hmem
    case deposit =>
      split at hok <;>
        · simp only [Except.ok.injEq, Prod.mk.injEq] at hok
          obtain ⟨-, h2⟩ := hok
          rw [← h2] at hmem
          exact Or.inl hmem
    case withdrawal =>
      split at hok
      · split at hok
        · simp at hok
        · simp only [Except.ok.injEq, Prod.mk.injEq] at hok
          obtain ⟨-, h2⟩ := hok
          rw [← h2] at hmem
          exact Or.inl hmem
      · simp only [Except.ok.injEq, Prod.mk.injEq] at hok
        obtain ⟨-, h2⟩ := hok
        rw [← h2] at hmem
        exact Or.inl hmem
    case sell =>
      cases h : evaluate_sell cfg coin q op false with
      | error e => rw [h] at hok; simp at hok
      | ok r =>
        obtain ⟨b, tx?⟩ := r
        rw [h] at hok
        simp only [Except.ok.injEq, Prod.mk.injEq] at hok
        obtain ⟨-, h2⟩ := hok
        rw [← h2] at hmem
        rcases List.mem_append.mp hmem with hm | hm
        · exact Or.inl hm
        · cases tx? with
          | none => simp at hm
          | some evs =>
            have hty := evaluate_sell_type cfg coin q op false b evs h
            simp only [Option.toList_some, List.mem_singleton] at hm
            rw [hm, hty] at htype
            simp at htype
    case commission =>
      split at hok
      · simp only [Except.ok.injEq, Prod.mk.injEq] at hok
        obtain ⟨-, h2⟩ := hok
        rw [← h2] at hmem
        rcases List.mem_append.mp hmem with hm | hm
        · exact Or.inl hm
        · simp only [List.mem_singleton] at hm
          rw [hm] at htype
          simp at htype
      · simp only [Except.ok.injEq, Prod.mk.injEq] at hok
        obtain ⟨-, h2⟩ := hok
        rw [← h2] at hmem
        exact Or.inl hmem
    case coinLendInterest =>
      by_cases hy : in_tax_year cfg op = true
      · rw [if_pos hy] at hok
        by_cases hf : cfg.is_fiat coin = true
        · exact Or.inr ⟨rfl, hf⟩
        · rw [if_neg hf] at hok
          simp only [Except.ok.injEq, Prod.mk.injEq] at hok
          obtain ⟨-, h2⟩ := hok
          rw [← h2] at hmem
          rcases List.mem_append.mp hmem with hm | hm
          · exact Or.inl hm
          · simp only [List.mem_singleton] at hm
            rw [hm] at htype
            simp at htype
      · rw [if_neg hy] at hok
        simp only [Except.ok.injEq, Prod.mk.injEq] at hok
        obtain ⟨-, h2⟩ := hok
        rw [← h2] at hmem
        exact Or.inl hmem
    case stakingInterest =>
      by_cases hy : in_tax_year cfg op = true
      · rw [if_pos hy] at hok
        by_cases hf : cfg.is_fiat coin = true
        · rw [if_pos hf] at hok
          simp at hok
        · rw [if_neg hf] at hok
          simp only [Except.ok.injEq, Prod.mk.injEq] at hok
          obtain ⟨-, h2⟩ := hok
          rw [← h2] at hmem
          rcases List.mem_append.mp hmem with hm | hm
          · exact Or.inl hm
          · simp only [List.mem_singleton] at hm
            rw [hm] at htype
            simp at htype
      · rw [if_neg hy] at hok
        simp only [Except.ok.injEq, Prod.mk.injEq] at hok
        obtain ⟨-, h2⟩ := hok
        rw [← h2] at hmem
        exact Or.inl hmem

/-- Witness for C10 at a concrete input: fiat staking interest in the tax
year aborts with the assertion message. -/
theorem C10_staking_fiat_witness :
    evalOp_GERMANY cfgX "EUR" ([], ⟨[], []⟩) stakingIntX =
      .error "You can not stake fiat currencies." :=
  (C10_staking_fiat cfgX "EUR" [] ⟨[], []⟩ stakingIntX).1 rfl (by decide) (by decide)

end CoinTaxman
